import Mathlib

/-!
Verification of the tool subsystem of a tool-augmented conversational agent.

The development shallowly embeds the Python tool implementations:
* `src/task/tools/files/file_content_extraction_tool.py` (`FileContentExtractionTool`),
* `src/task/tools/rag/rag_tool.py` (`RagTool`),
* `src/task/tools/deployment/image_generation_tool.py` (`ImageGenerationTool`).

Python strings are modelled by `String`, parsed JSON tool arguments by
association lists, a raised Python exception by `Except.error`, and the
progress sink ("stage") by the list of strings appended to it, in order.
External collaborators (the DIAL file-content extractor, the sentence
embedder, the text splitter, the generation backend) are parameters of the
embedded functions.  The faiss `IndexFlatL2` nearest-neighbour search is not
part of the repository; it is modelled from the spec (exact L2 search
returning indices sorted by ascending distance).
-/

/-- A scalar JSON value of a parsed tool-call argument object.  The tools
under test declare only string and integer parameters, so runtime argument
objects are modelled with these two shapes. -/
inductive ArgValue where
  | str : String → ArgValue
  | int : Int → ArgValue
deriving DecidableEq

/-- Python `f"{v}"` of a scalar argument value. -/
def ArgValue.render : ArgValue → String
  | ArgValue.str s => s
  | ArgValue.int n => toString n

/-- Using an argument value as a Python `int`; a non-integer value raises
`TypeError` at the first arithmetic comparison. -/
def ArgValue.asInt : ArgValue → Except String Int
  | ArgValue.int n => Except.ok n
  | ArgValue.str s => Except.error ("TypeError: unsupported comparison between str and int: " ++ s)

/-- Python `arguments[key]` on a parsed JSON object: raises `KeyError` when
the key is absent. -/
def argLookup (arguments : List (String × ArgValue)) (key : String) : Except String ArgValue :=
  match arguments.find? (fun f => f.1 == key) with
  | some f => Except.ok f.2
  | none => Except.error ("KeyError: " ++ key)

/-- Python `arguments.get(key, dflt)`. -/
def argGetD (arguments : List (String × ArgValue)) (key : String) (dflt : ArgValue) : ArgValue :=
  match arguments.find? (fun f => f.1 == key) with
  | some f => f.2
  | none => dflt

/-- JSON values, used to transcribe the declared parameter schemas. -/
inductive Json where
  | null : Json
  | str : String → Json
  | num : Int → Json
  | bool : Bool → Json
  | arr : List Json → Json
  | obj : List (String × Json) → Json

/-- Field lookup in a JSON object (`none` on non-objects and absent keys). -/
def jsonObjGet (j : Json) (key : String) : Option Json :=
  match j with
  | Json.obj fields => (fields.find? (fun f => f.1 == key)).map Prod.snd
  | _ => none

/-- The property names declared by a JSON-Schema object. -/
def schemaPropertyKeys (schema : Json) : List String :=
  match jsonObjGet schema "properties" with
  | some (Json.obj fields) => fields.map Prod.fst
  | _ => []

/-- The `required` list declared by a JSON-Schema object. -/
def schemaRequired (schema : Json) : List String :=
  match jsonObjGet schema "required" with
  | some (Json.arr items) =>
      items.filterMap (fun j => match j with | Json.str s => some s | _ => none)
  | _ => []

/-- `RagTool.parameters` (src/task/tools/rag/rag_tool.py lines 111-120),
transcribed verbatim: `properties` declares only `request`, while `required`
lists both `request` and `file_url`. -/
def RagTool.parameters : Json :=
  Json.obj [
    ("type", Json.str "object"),
    ("properties", Json.obj [
      ("request", Json.obj [
        ("type", Json.str "string"),
        ("description", Json.str "The search query or question to search for in the document")])]),
    ("required", Json.arr [Json.str "request", Json.str "file_url"])]

/-- Python slicing `s[start:stop]` with `0 ≤ start ≤ stop`. -/
def strSlice (s : String) (start stop : Nat) : String :=
  String.mk ((s.data.drop start).take (stop - start))

/-- The fixed page size of the extraction tool (`page_size = 10_000`). -/
def fcePageSize : Nat := 10000

/-- `total_pages = (len(content) + page_size - 1) // page_size`
(file_content_extraction_tool.py line 74): ceiling division. -/
def fceTotalPages (len : Nat) : Nat := (len + fcePageSize - 1) / fcePageSize

/-- `f"Error: Page {page} does not exist. Total pages: {total_pages}"`
(file_content_extraction_tool.py line 79). -/
def fceErrorPage (page : Int) (total_pages : Nat) : String :=
  "Error: Page " ++ toString page ++ " does not exist. Total pages: " ++ toString total_pages

/-- Lines 81-85: the in-range page slice followed by the page marker,
`f"{page_content}\n\n**Page #{page}. Total pages: {total_pages}**"`. -/
def fcePagedContent (content : String) (page : Nat) (total_pages : Nat) : String :=
  strSlice content ((page - 1) * fcePageSize) ((page - 1) * fcePageSize + fcePageSize) ++
    ("\n\n**Page #" ++ toString page ++ ". Total pages: " ++ toString total_pages ++ "**")

/-- The fallback content when extraction yields nothing (line 70). -/
def fceNotFound : String := "Error: File content not found."

/-- The stage entries appended by `FileContentExtractionTool._execute`
before the response body (lines 56-62). -/
def fceArgumentsLog (file_url : String) (page : Int) : List String :=
  ["## Request arguments: \n", "**File URL**: " ++ file_url ++ "\n\r"] ++
    (if page > 1 then ["**Page**: " ++ toString page ++ "\n\r"] else []) ++
    ["## Response: \n"]

/-- `FileContentExtractionTool._execute` after argument parsing
(file_content_extraction_tool.py lines 56-89).  `extract` models
`DialFileContentExtractor.extract_text`; `none` and `some ""` are both
Python-falsy.  The result pairs the stage log with the returned string. -/
def fceRun (file_url : String) (page : Int) (extract : String → Option String) :
    Except String (List String × String) :=
  let log := fceArgumentsLog file_url page
  let content0 := (extract file_url).getD ""
  let content := if content0 = "" then fceNotFound else content0
  if content.length > 10000 then
    let total_pages := fceTotalPages content.length
    if page < 1 then
      let paged := fcePagedContent content 1 total_pages
      Except.ok (log ++ ["```text\n\r" ++ paged ++ "\n\r```\n\r"], paged)
    else if page > (total_pages : Int) then
      Except.ok (log, fceErrorPage page total_pages)
    else
      let paged := fcePagedContent content page.toNat total_pages
      Except.ok (log ++ ["```text\n\r" ++ paged ++ "\n\r```\n\r"], paged)
  else
    Except.ok (log ++ ["```text\n\r" ++ content ++ "\n\r```\n\r"], content)

/-- `FileContentExtractionTool._execute` (lines 51-89): argument parsing
(`arguments["file_url"]`, `arguments.get("page", 1)`) followed by `fceRun`. -/
def fceExecute (arguments : List (String × ArgValue)) (extract : String → Option String) :
    Except String (List String × String) :=
  match argLookup arguments "file_url" with
  | Except.error e => Except.error e
  | Except.ok fileUrlV =>
    match (argGetD arguments "page" (ArgValue.int 1)).asInt with
    | Except.error e => Except.error e
    | Except.ok page => fceRun fileUrlV.render page extract

/-- The argument objects used by the extraction-tool claims. -/
def fceArgs (file_url : String) (page : Int) : List (String × ArgValue) :=
  [("file_url", ArgValue.str file_url), ("page", ArgValue.int page)]

/-- `cache_document_key = f"{tool_call_params.conversation_id}:{file_url}"`
(rag_tool.py line 167). -/
def ragCacheKey (conversationId : String) (file_url : String) : String :=
  conversationId ++ ":" ++ file_url

/-- `RagTool.__augmentation` (rag_tool.py lines 228-235): join the chunks
with a blank line and wrap them in the CONTEXT/REQUEST frame. -/
def ragAugmentation (request : String) (chunks : List String) : String :=
  let joined_chunks := String.intercalate "\n\n" chunks
  "CONTEXT:\n" ++ joined_chunks ++ "\n---\nREQUEST: " ++ request

/-- Squared L2 distance between two vectors, zipped coordinatewise.
Modelled from the spec: the Vector Index compares embeddings by squared
Euclidean distance (spec section 4.3); exact float arithmetic is modelled
over the rationals. -/
def sqL2Dist (q v : List Rat) : Rat :=
  ((q.zip v).map (fun p => (p.1 - p.2) * (p.1 - p.2))).sum

/-- Insertion into a distance-sorted list (stable, ascending distance). -/
def insertByDist (p : Nat × Rat) : List (Nat × Rat) → List (Nat × Rat)
  | [] => [p]
  | q :: rest => if p.2 ≤ q.2 then p :: q :: rest else q :: insertByDist p rest

/-- Insertion sort by ascending distance. -/
def sortByDist : List (Nat × Rat) → List (Nat × Rat)
  | [] => []
  | p :: rest => insertByDist p (sortByDist rest)

/-- Modelled from the spec: `faiss.IndexFlatL2` search (an external
collaborator, spec sections 4.3 and 6): exact nearest-neighbour search over
the stored vectors, returning the indices of the `k` closest vectors by
ascending squared L2 distance. -/
def indexFlatL2Search (vectors : List (List Rat)) (q : List Rat) (k : Nat) : List Nat :=
  let dists := (List.range vectors.length).map (fun i => (i, sqL2Dist q (vectors.getD i [])))
  ((sortByDist dists).take k).map Prod.fst

/-- `chunks[idx]` in Python: raises `IndexError` when out of range. -/
def listGetE (chunks : List String) (i : Nat) : Except String String :=
  if h : i < chunks.length then Except.ok (chunks.get ⟨i, h⟩)
  else Except.error "IndexError: list index out of range"

/-- The search made by `RagTool._execute` (rag_tool.py lines 189-191):
`k = min(3, len(chunks))` and an `IndexFlatL2` search over the chunk
embeddings. -/
def ragSearchIndices (chunks : List String) (embed : String → List Rat) (request : String) :
    List Nat :=
  indexFlatL2Search (chunks.map embed) (embed request) (min 3 chunks.length)

/-- The error content returned when extraction yields nothing
(rag_tool.py line 179). -/
def ragNotFound : String := "Error: File content not found."

/-- The stage entries appended by `RagTool._execute` on entry
(rag_tool.py lines 138-140). -/
def ragArgumentsLog (request file_url : String) : List String :=
  ["## Request arguments: \n", "**Request**: " ++ request ++ "\n\r",
   "**File URL**: " ++ file_url ++ "\n\r"]

/-- Retrieval, augmentation and generation (rag_tool.py lines 189-226),
shared by the cache-hit and cache-miss paths.  `generate` maps the
augmented prompt to the accumulated streamed completion; the streamed
deltas appear in the stage as their concatenation. -/
def ragExecuteSearch (log : List String) (request : String) (index : List (List Rat))
    (chunks : List String) (embed : String → List Rat) (generate : String → String) :
    Except String (List String × String) :=
  let k := min 3 chunks.length
  let indices := indexFlatL2Search index (embed request) k
  match indices.mapM (listGetE chunks) with
  | Except.error e => Except.error e
  | Except.ok retrieved_chunks =>
    let augmented_prompt := ragAugmentation request retrieved_chunks
    let log1 := log ++ ["## RAG Request: \n", "```text\n\r" ++ augmented_prompt ++ "\n\r```\n\r",
      "## Response: \n"]
    let content := generate augmented_prompt
    Except.ok (log1 ++ [content], content)

/-- `RagTool._execute` after argument parsing (rag_tool.py lines 137-226):
stage echo, cache lookup by composite key, on miss extraction (empty
extraction returns the not-found result), chunking, embedding, index build,
then search and generation. -/
def ragRun (request file_url conversationId : String)
    (cache : String → Option (List (List Rat) × List String))
    (extract : String → Option String) (split : String → List String)
    (embed : String → List Rat) (generate : String → String) :
    Except String (List String × String) :=
  let log := ragArgumentsLog request file_url
  let cache_document_key := ragCacheKey conversationId file_url
  match cache cache_document_key with
  | some cached_data => ragExecuteSearch log request cached_data.1 cached_data.2 embed generate
  | none =>
    let text_content := (extract file_url).getD ""
    if text_content = "" then
      Except.ok (log ++ ["## Response: \n", ragNotFound ++ "\n"], ragNotFound)
    else
      let chunks := split text_content
      let index := chunks.map embed
      ragExecuteSearch log request index chunks embed generate

/-- `RagTool._execute` (rag_tool.py lines 122-226): argument parsing
(`arguments["request"]`, then `arguments["file_url"]`) followed by
`ragRun`. -/
def ragExecute (arguments : List (String × ArgValue)) (conversationId : String)
    (cache : String → Option (List (List Rat) × List String))
    (extract : String → Option String) (split : String → List String)
    (embed : String → List Rat) (generate : String → String) :
    Except String (List String × String) :=
  match argLookup arguments "request" with
  | Except.error e => Except.error e
  | Except.ok requestV =>
    match argLookup arguments "file_url" with
    | Except.error e => Except.error e
    | Except.ok fileUrlV =>
      ragRun requestV.render fileUrlV.render conversationId cache extract split embed generate

/-- An attachment of a DIAL message: MIME type and URL. -/
structure DialAttachment where
  type : Option String
  url : String

/-- The `custom_content` of a DIAL message. -/
structure DialCustomContent where
  attachments : Option (List DialAttachment)

/-- A DIAL message as used by `ImageGenerationTool._execute`: optional text
content plus optional custom content. -/
structure DialMessage where
  content : Option String
  custom_content : Option DialCustomContent

/-- The fixed confirmation sentence (image_generation_tool.py line 34). -/
def imageConfirmation : String :=
  "The image has been successfully generated according to request and shown to user!"

/-- `attachment.type in ("image/png", "image/jpeg")` (line 30). -/
def isImageAttachment (a : DialAttachment) : Bool :=
  a.type == some "image/png" || a.type == some "image/jpeg"

/-- `f"\n\r![image]({attachment.url})\n\r"` (line 31). -/
def imageMarkdown (a : DialAttachment) : String :=
  "\n\r![image](" ++ a.url ++ ")\n\r"

/-- `ImageGenerationTool._execute` (image_generation_tool.py lines 26-36)
applied to the parent result `msg`: the strings appended to the choice
(visible response channel), in order, and the returned message.  The loop
body guards on the MIME type, so the appended strings are the filtered
image attachments in order; the `if not msg.content` substitution fires for
`None` and for the empty string. -/
def imageGenExecute (msg : DialMessage) : List String × DialMessage :=
  match msg.custom_content with
  | none => ([], msg)
  | some cc =>
    match cc.attachments with
    | none => ([], msg)
    | some [] => ([], msg)
    | some atts =>
      let appended := (atts.filter isImageAttachment).map imageMarkdown
      let content := if msg.content = none ∨ msg.content = some "" then some imageConfirmation
        else msg.content
      (appended, { msg with content := content })

/-- Modelled from the spec: the joined context block of section 4.5 step 7,
the retrieved chunks concatenated in the given order with a blank-line
separator between consecutive chunks. -/
def specJoinedChunks : List String → String
  | [] => ""
  | [c] => c
  | c :: rest => c ++ "\n\n" ++ specJoinedChunks rest

/-- Modelled from the spec: the augmented prompt of the shape
`CONTEXT:\n<joined chunks>\n---\nREQUEST: <query>` (section 4.5 step 7). -/
def specAugmentedPrompt (request : String) (chunks : List String) : String :=
  "CONTEXT:\n" ++ specJoinedChunks chunks ++ "\n---\nREQUEST: " ++ request

/-- The tail of a separated join: the separator-prefixed continuation. -/
def tailJoin (s : String) : List String → String
  | [] => ""
  | a :: as => s ++ a ++ tailJoin s as

/-- A concrete 25000-character extracted content, used as a witness input. -/
def wit25000 : String := String.mk (List.replicate 25000 'x')

/-- A concrete 10001-character extracted content, used as a witness input. -/
def wit10001 : String := String.mk (List.replicate 10001 'x')

/-- A concrete PNG attachment, used as a witness input. -/
def witAttachment : DialAttachment := { type := some "image/png", url := "http://img" }

/-- A concrete generated-image result message with one PNG attachment and
no text content, used as a witness input. -/
def witMsg : DialMessage :=
  { content := none, custom_content := some { attachments := some [witAttachment] } }

/-! ## Supporting lemmas -/

theorem wit25000_length : wit25000.length = 25000 := by
  rw [show wit25000.length = (List.replicate 25000 'x').length from rfl, List.length_replicate]

theorem wit10001_length : wit10001.length = 10001 := by
  rw [show wit10001.length = (List.replicate 10001 'x').length from rfl, List.length_replicate]

theorem insertByDist_length (p : Nat × Rat) (l : List (Nat × Rat)) :
    (insertByDist p l).length = l.length + 1 := by
  induction l with
  | nil => rfl
  | cons q rest ih =>
    simp only [insertByDist]
    split
    · simp
    · simp [ih]

theorem sortByDist_length (l : List (Nat × Rat)) : (sortByDist l).length = l.length := by
  induction l with
  | nil => rfl
  | cons p rest ih =>
    simp only [sortByDist]
    rw [insertByDist_length, ih, List.length_cons]

theorem mem_insertByDist {q p : Nat × Rat} {l : List (Nat × Rat)}
    (h : q ∈ insertByDist p l) : q = p ∨ q ∈ l := by
  induction l with
  | nil => simpa [insertByDist] using h
  | cons r rest ih =>
    simp only [insertByDist] at h
    split at h
    · simpa using h
    · rcases List.mem_cons.mp h with h | h
      · right
        exact h ▸ List.mem_cons_self r rest
      · rcases ih h with h | h
        · exact Or.inl h
        · exact Or.inr (List.mem_cons_of_mem r h)

theorem mem_sortByDist {q : Nat × Rat} {l : List (Nat × Rat)}
    (h : q ∈ sortByDist l) : q ∈ l := by
  induction l with
  | nil => simp [sortByDist] at h
  | cons p rest ih =>
    simp only [sortByDist] at h
    rcases mem_insertByDist h with h | h
    · exact h ▸ List.mem_cons_self p rest
    · exact List.mem_cons_of_mem p (ih h)

theorem indexFlatL2Search_length (vectors : List (List Rat)) (q : List Rat) (k : Nat) :
    (indexFlatL2Search vectors q k).length = min k vectors.length := by
  simp [indexFlatL2Search, sortByDist_length]

theorem indexFlatL2Search_lt_length {vectors : List (List Rat)} {q : List Rat} {k i : Nat}
    (h : i ∈ indexFlatL2Search vectors q k) : i < vectors.length := by
  simp only [indexFlatL2Search, List.mem_map] at h
  obtain ⟨p, hp, hpi⟩ := h
  have h1 : p ∈ sortByDist ((List.range vectors.length).map
      (fun j => (j, sqL2Dist q (vectors.getD j [])))) := List.take_subset _ _ hp
  have h2 := mem_sortByDist h1
  simp only [List.mem_map, List.mem_range] at h2
  obtain ⟨j, hj, hpj⟩ := h2
  rw [← hpi, ← hpj]
  exact hj

theorem fceExecute_fceArgs (file_url : String) (page : Int) (extract : String → Option String) :
    fceExecute (fceArgs file_url page) extract = fceRun file_url page extract := rfl

theorem fceTotalPages_two_le {len : Nat} (h : 10000 < len) : 2 ≤ fceTotalPages len := by
  unfold fceTotalPages fcePageSize
  rw [Nat.le_div_iff_mul_le (by norm_num)]
  omega

theorem fceTotalPages_pos {len : Nat} (h : 0 < len) : 1 ≤ fceTotalPages len := by
  unfold fceTotalPages fcePageSize
  rw [Nat.le_div_iff_mul_le (by norm_num)]
  omega

theorem length_ne_empty {content : String} (h : 0 < content.length) : content ≠ "" := by
  intro e
  rw [e] at h
  exact absurd h (by decide)

theorem fceRun_whole (file_url : String) (page : Int) (extract : String → Option String)
    (content : String) (hx : extract file_url = some content) (hne : content ≠ "")
    (hlen : content.length ≤ 10000) :
    fceRun file_url page extract =
      Except.ok (fceArgumentsLog file_url page ++ ["```text\n\r" ++ content ++ "\n\r```\n\r"],
        content) := by
  unfold fceRun
  rw [hx]
  simp only [Option.getD_some]
  rw [if_neg hne, if_neg (by omega : ¬ content.length > 10000)]

theorem fceRun_error (file_url : String) (page : Int) (extract : String → Option String)
    (content : String) (hx : extract file_url = some content) (hlen : 10000 < content.length)
    (hp : (fceTotalPages content.length : Int) < page) :
    fceRun file_url page extract =
      Except.ok (fceArgumentsLog file_url page, fceErrorPage page (fceTotalPages content.length)) := by
  have hne : content ≠ "" := length_ne_empty (by omega)
  have htot : 2 ≤ fceTotalPages content.length := fceTotalPages_two_le hlen
  have htot2 : (2 : Int) ≤ (fceTotalPages content.length : Int) := by exact_mod_cast htot
  unfold fceRun
  rw [hx]
  simp only [Option.getD_some]
  rw [if_neg hne, if_pos (by omega : content.length > 10000),
    if_neg (by omega : ¬ page < 1), if_pos (by omega : page > (fceTotalPages content.length : Int))]

theorem fceRun_paged (file_url : String) (page : Int) (extract : String → Option String)
    (content : String) (hx : extract file_url = some content) (hlen : 10000 < content.length)
    (h1 : 1 ≤ page) (h2 : page ≤ (fceTotalPages content.length : Int)) :
    fceRun file_url page extract =
      Except.ok (fceArgumentsLog file_url page ++
          ["```text\n\r" ++ fcePagedContent content page.toNat (fceTotalPages content.length) ++ "\n\r```\n\r"],
        fcePagedContent content page.toNat (fceTotalPages content.length)) := by
  have hne : content ≠ "" := length_ne_empty (by omega)
  unfold fceRun
  rw [hx]
  simp only [Option.getD_some]
  rw [if_neg hne, if_pos (by omega : content.length > 10000),
    if_neg (by omega : ¬ page < 1),
    if_neg (by omega : ¬ page > (fceTotalPages content.length : Int))]

theorem fceRun_low (file_url : String) (page : Int) (extract : String → Option String)
    (content : String) (hx : extract file_url = some content) (hlen : 10000 < content.length)
    (hp : page < 1) :
    fceRun file_url page extract =
      Except.ok (fceArgumentsLog file_url page ++
          ["```text\n\r" ++ fcePagedContent content 1 (fceTotalPages content.length) ++ "\n\r```\n\r"],
        fcePagedContent content 1 (fceTotalPages content.length)) := by
  have hne : content ≠ "" := length_ne_empty (by omega)
  unfold fceRun
  rw [hx]
  simp only [Option.getD_some]
  rw [if_neg hne, if_pos (by omega : content.length > 10000), if_pos hp]

theorem fceArgumentsLog_of_le_one (file_url : String) {page : Int} (h : page ≤ 1) :
    fceArgumentsLog file_url page = fceArgumentsLog file_url 1 := by
  unfold fceArgumentsLog
  rw [if_neg (by omega : ¬ page > 1), if_neg (by omega : ¬ (1 : Int) > 1)]

theorem intercalate_go_spec (s : String) (l : List String) :
    ∀ acc : String, String.intercalate.go acc s l = acc ++ tailJoin s l := by
  induction l with
  | nil =>
    intro acc
    simp [String.intercalate.go, tailJoin]
  | cons a as ih =>
    intro acc
    rw [show String.intercalate.go acc s (a :: as) = String.intercalate.go (acc ++ s ++ a) s as
      from rfl]
    rw [ih, tailJoin, String.append_assoc, String.append_assoc, String.append_assoc]

theorem intercalate_eq_specJoined (chunks : List String) :
    String.intercalate "\n\n" chunks = specJoinedChunks chunks := by
  cases chunks with
  | nil => rfl
  | cons a as =>
    rw [show String.intercalate "\n\n" (a :: as) = String.intercalate.go a "\n\n" as from rfl]
    rw [intercalate_go_spec]
    induction as generalizing a with
    | nil => simp [tailJoin, specJoinedChunks]
    | cons b bs ih =>
      rw [show specJoinedChunks (a :: b :: bs) = a ++ "\n\n" ++ specJoinedChunks (b :: bs)
        from rfl]
      rw [tailJoin, ← ih b, String.append_assoc]
      rw [String.append_assoc]

theorem ragAugmentation_eq_spec (request : String) (chunks : List String) :
    ragAugmentation request chunks = specAugmentedPrompt request chunks := by
  unfold ragAugmentation specAugmentedPrompt
  rw [intercalate_eq_specJoined]

theorem append_cons_inj {α : Type} {x : α} :
    ∀ {a c b d : List α}, x ∉ a → x ∉ c → a ++ x :: b = c ++ x :: d → a = c ∧ b = d := by
  intro a
  induction a with
  | nil =>
    intro c b d _ hc h
    cases c with
    | nil =>
      simp only [List.nil_append, List.cons.injEq] at h
      exact ⟨rfl, h.2⟩
    | cons y c =>
      simp only [List.nil_append, List.cons_append, List.cons.injEq] at h
      exact absurd (h.1 ▸ List.mem_cons_self y c) hc
  | cons z a ih =>
    intro c b d ha hc h
    cases c with
    | nil =>
      simp only [List.cons_append, List.nil_append, List.cons.injEq] at h
      exact absurd (h.1.symm ▸ List.mem_cons_self z a) ha
    | cons y c =>
      simp only [List.cons_append, List.cons.injEq] at h
      obtain ⟨rfl, h2⟩ := h
      have hrec := ih (fun hm => ha (List.mem_cons_of_mem z hm))
        (fun hm => hc (List.mem_cons_of_mem z hm)) h2
      exact ⟨by rw [hrec.1], hrec.2⟩

theorem ragCacheKey_data (conversationId file_url : String) :
    (ragCacheKey conversationId file_url).data =
      conversationId.data ++ ':' :: file_url.data := by
  unfold ragCacheKey
  rw [String.data_append, String.data_append, List.append_assoc]
  rfl

/-! ## Claims -/

/-- C1: the spec requires the retrieval tool to declare both `request` and
`file_url` in the schema `properties` object and in the `required` array
consistently.  The code violates this: evaluating the transcribed
`RagTool.parameters` schema shows `request` in both, and `file_url` listed
in `required` but absent from `properties`. -/
theorem c1_ragTool_parameters_schema_mismatch :
    ("request" ∈ schemaPropertyKeys RagTool.parameters ∧
      "request" ∈ schemaRequired RagTool.parameters ∧
      "file_url" ∈ schemaRequired RagTool.parameters) ∧
    "file_url" ∉ schemaPropertyKeys RagTool.parameters := by
  decide

/-- C3: the spec requires `execute` to report a missing required argument
field as a descriptive string result rather than raising.  The code
violates this: with `request` (resp. `file_url`) absent from the parsed
arguments, `RagTool._execute` and `FileContentExtractionTool._execute`
raise `KeyError` (modelled as `Except.error`) instead of returning a
string result. -/
theorem c3_execute_raises_on_missing_required_field :
    ragExecute [] "conv" (fun _ => none) (fun _ => none) (fun _ => []) (fun _ => [])
        (fun _ => "") = Except.error "KeyError: request" ∧
    ragExecute [("request", ArgValue.str "q")] "conv" (fun _ => none) (fun _ => none)
        (fun _ => []) (fun _ => []) (fun _ => "") = Except.error "KeyError: file_url" ∧
    fceExecute [] (fun _ => none) = Except.error "KeyError: file_url" ∧
    fceExecute [("page", ArgValue.int 1)] (fun _ => none) = Except.error "KeyError: file_url" :=
  ⟨rfl, rfl, rfl, rfl⟩

/-- C4 counterexample: the composite cache key `conversation_id ++ ":" ++
file_url` is not injective on all pairs: the distinct pairs `("a:b", "c")`
and `("a", "b:c")` produce the same key `"a:b:c"`. -/
theorem c4_ragCacheKey_collision :
    ragCacheKey "a:b" "c" = ragCacheKey "a" "b:c" ∧
    (("a:b", "c") : String × String) ≠ ("a", "b:c") := by
  exact ⟨by decide, by decide⟩

/-- C4 (amended): the composite cache key is injective provided the
conversation identifiers contain no `:` separator character: two pairs
that differ in a component then yield different keys. -/
theorem c4_ragCacheKey_injective_of_colon_free (c₁ u₁ c₂ u₂ : String)
    (h₁ : ':' ∉ c₁.data) (h₂ : ':' ∉ c₂.data) (hne : (c₁, u₁) ≠ (c₂, u₂)) :
    ragCacheKey c₁ u₁ ≠ ragCacheKey c₂ u₂ := by
  intro h
  apply hne
  have hd := congrArg String.data h
  rw [ragCacheKey_data, ragCacheKey_data] at hd
  obtain ⟨e1, e2⟩ := append_cons_inj h₁ h₂ hd
  rw [Prod.mk.injEq]
  exact ⟨String.ext e1, String.ext e2⟩

/-- C4 witness: the amended injectivity applied at concrete colon-free
conversation identifiers. -/
theorem c4_ragCacheKey_injective_witness :
    (':' ∉ "conv1".data) ∧ (':' ∉ "conv2".data) ∧
    (("conv1", "fileA") : String × String) ≠ ("conv2", "fileA") ∧
    ragCacheKey "conv1" "fileA" ≠ ragCacheKey "conv2" "fileA" :=
  ⟨by decide, by decide, by decide,
    c4_ragCacheKey_injective_of_colon_free "conv1" "fileA" "conv2" "fileA" (by decide) (by decide)
      (by decide)⟩

/-- C2: for every extracted content string of 25000 characters the
extraction tool computes `total_pages = 3` by ceiling division, and a
request for page 2 returns exactly the characters `[10000:20000]` followed
by the trailing page marker `Page #2. Total pages: 3` (in the bold marker
format appended by the code). -/
theorem c2_fce_page2_of_25000_chars (file_url : String) (extract : String → Option String)
    (content : String) (hx : extract file_url = some content)
    (hlen : content.length = 25000) :
    fceTotalPages content.length = 3 ∧
    fceExecute (fceArgs file_url 2) extract =
      Except.ok (fceArgumentsLog file_url 2 ++
          ["```text\n\r" ++ (strSlice content 10000 20000 ++ "\n\n**Page #2. Total pages: 3**") ++
            "\n\r```\n\r"],
        strSlice content 10000 20000 ++ "\n\n**Page #2. Total pages: 3**") := by
  have h3 : fceTotalPages content.length = 3 := by rw [hlen]; decide
  refine ⟨h3, ?_⟩
  rw [fceExecute_fceArgs,
    fceRun_paged file_url 2 extract content hx (by omega) (by omega) (by rw [h3]; decide), h3]
  have hfp : fcePagedContent content (2 : Int).toNat 3 =
      strSlice content 10000 20000 ++ "\n\n**Page #2. Total pages: 3**" := by
    unfold fcePagedContent fcePageSize
    rfl
  rw [hfp]

/-- C2 witness: the page-2 behaviour evaluated at a concrete
25000-character content. -/
theorem c2_fce_page2_witness :
    ((fun _ : String => some wit25000) "u" = some wit25000) ∧ wit25000.length = 25000 ∧
    (fceTotalPages wit25000.length = 3 ∧
      fceExecute (fceArgs "u" 2) (fun _ => some wit25000) =
        Except.ok (fceArgumentsLog "u" 2 ++
            ["```text\n\r" ++ (strSlice wit25000 10000 20000 ++ "\n\n**Page #2. Total pages: 3**") ++
              "\n\r```\n\r"],
          strSlice wit25000 10000 20000 ++ "\n\n**Page #2. Total pages: 3**")) :=
  ⟨rfl, wit25000_length,
    c2_fce_page2_of_25000_chars "u" (fun _ => some wit25000) wit25000 rfl wit25000_length⟩

/-- C7: for every extracted content longer than 10000 characters and every
requested page greater than the ceiling-division total page count, the
extraction tool returns (does not raise) an explicit does-not-exist error
string mentioning the total page count. -/
theorem c7_fce_out_of_range_page_error (file_url : String) (extract : String → Option String)
    (content : String) (page : Int) (hx : extract file_url = some content)
    (hlen : 10000 < content.length) (hp : (fceTotalPages content.length : Int) < page) :
    fceExecute (fceArgs file_url page) extract =
      Except.ok (fceArgumentsLog file_url page,
        "Error: Page " ++ toString page ++ " does not exist. Total pages: " ++
          toString (fceTotalPages content.length)) := by
  rw [fceExecute_fceArgs, fceRun_error file_url page extract content hx hlen hp]
  rfl

/-- C7 witness: the out-of-range error evaluated at a concrete
10001-character content and page 5. -/
theorem c7_fce_out_of_range_witness :
    ((fun _ : String => some wit10001) "u" = some wit10001) ∧ 10000 < wit10001.length ∧
    ((fceTotalPages wit10001.length : Int) < 5) ∧
    fceExecute (fceArgs "u" 5) (fun _ => some wit10001) =
      Except.ok (fceArgumentsLog "u" 5,
        "Error: Page " ++ toString (5 : Int) ++ " does not exist. Total pages: " ++
          toString (fceTotalPages wit10001.length)) :=
  ⟨rfl, by rw [wit10001_length]; norm_num, by rw [wit10001_length]; decide,
    c7_fce_out_of_range_page_error "u" (fun _ => some wit10001) wit10001 5 rfl
      (by rw [wit10001_length]; norm_num) (by rw [wit10001_length]; decide)⟩

/-- C10: complete branch characterisation of the extraction tool on
non-empty extracted content: the out-of-range error string is returned
exactly when the content exceeds 10000 characters and the requested page
exceeds the total page count; a page below 1 on paginated content behaves
exactly like page 1 (content, marker and stage log included); in-range
pages return the page slice with its marker; and content of at most 10000
characters is returned whole, with no marker, whatever the requested
page. -/
theorem c10_fce_pagination_characterization (file_url : String)
    (extract : String → Option String) (content : String) (page : Int)
    (hx : extract file_url = some content) (hne : content ≠ "") :
    (10000 < content.length → (fceTotalPages content.length : Int) < page →
      fceExecute (fceArgs file_url page) extract =
        Except.ok (fceArgumentsLog file_url page,
          fceErrorPage page (fceTotalPages content.length))) ∧
    (10000 < content.length → 1 ≤ page → page ≤ (fceTotalPages content.length : Int) →
      fceExecute (fceArgs file_url page) extract =
        Except.ok (fceArgumentsLog file_url page ++
            ["```text\n\r" ++ fcePagedContent content page.toNat (fceTotalPages content.length) ++
              "\n\r```\n\r"],
          fcePagedContent content page.toNat (fceTotalPages content.length))) ∧
    (10000 < content.length → page < 1 →
      fceExecute (fceArgs file_url page) extract = fceExecute (fceArgs file_url 1) extract) ∧
    (content.length ≤ 10000 →
      fceExecute (fceArgs file_url page) extract =
        Except.ok (fceArgumentsLog file_url page ++
          ["```text\n\r" ++ content ++ "\n\r```\n\r"], content)) := by
  refine ⟨?_, ?_, ?_, ?_⟩
  · intro hlen hp
    rw [fceExecute_fceArgs, fceRun_error file_url page extract content hx hlen hp]
  · intro hlen h1 h2
    rw [fceExecute_fceArgs, fceRun_paged file_url page extract content hx hlen h1 h2]
  · intro hlen hp
    rw [fceExecute_fceArgs, fceExecute_fceArgs,
      fceRun_low file_url page extract content hx hlen hp,
      fceRun_paged file_url 1 extract content hx hlen (by omega)
        (by have h := fceTotalPages_two_le hlen; omega),
      fceArgumentsLog_of_le_one file_url (by omega : page ≤ 1)]
    rfl
  · intro hlen
    rw [fceExecute_fceArgs, fceRun_whole file_url page extract content hx hne hlen]

/-- C10 witness: the characterisation applied at a concrete short content
(returned whole) with an over-large page request. -/
theorem c10_fce_pagination_witness :
    ((fun _ : String => some "abc") "u" = some "abc") ∧ ("abc" : String) ≠ "" ∧
    (("abc" : String).length ≤ 10000 →
      fceExecute (fceArgs "u" 7) (fun _ => some "abc") =
        Except.ok (fceArgumentsLog "u" 7 ++
          ["```text\n\rabc\n\r```\n\r"], "abc")) :=
  ⟨rfl, by decide,
    (c10_fce_pagination_characterization "u" (fun _ => some "abc") "abc" 7 rfl
      (by decide)).2.2.2⟩

/-- C5: on a cache miss whose extraction yields no content (absent or
empty), the retrieval tool appends the diagnostic entries to the progress
sink and returns the plain textual content-not-found result; no exception
is raised. -/
theorem c5_rag_empty_extraction_not_found (arguments : List (String × ArgValue))
    (conversationId : String) (cache : String → Option (List (List Rat) × List String))
    (extract : String → Option String) (split : String → List String)
    (embed : String → List Rat) (generate : String → String) (rq uv : ArgValue)
    (hreq : argLookup arguments "request" = Except.ok rq)
    (hurl : argLookup arguments "file_url" = Except.ok uv)
    (hmiss : cache (ragCacheKey conversationId uv.render) = none)
    (hempty : (extract uv.render).getD "" = "") :
    ragExecute arguments conversationId cache extract split embed generate =
      Except.ok (ragArgumentsLog rq.render uv.render ++ ["## Response: \n", ragNotFound ++ "\n"],
        ragNotFound) := by
  simp only [ragExecute, hreq, hurl, ragRun, hmiss, hempty, if_pos]

/-- C5 witness: the empty-extraction path evaluated at concrete arguments
with an absent document. -/
theorem c5_rag_empty_extraction_witness :
    (argLookup [("request", ArgValue.str "q"), ("file_url", ArgValue.str "u")] "request" =
      Except.ok (ArgValue.str "q")) ∧
    (argLookup [("request", ArgValue.str "q"), ("file_url", ArgValue.str "u")] "file_url" =
      Except.ok (ArgValue.str "u")) ∧
    ((fun _ : String => (none : Option (List (List Rat) × List String)))
      (ragCacheKey "conv" (ArgValue.str "u").render) = none) ∧
    (((fun _ : String => (none : Option String)) (ArgValue.str "u").render).getD "" = "") ∧
    ragExecute [("request", ArgValue.str "q"), ("file_url", ArgValue.str "u")] "conv"
        (fun _ => none) (fun _ => none) (fun _ => []) (fun _ => []) (fun _ => "") =
      Except.ok (ragArgumentsLog (ArgValue.str "q").render (ArgValue.str "u").render ++
          ["## Response: \n", ragNotFound ++ "\n"], ragNotFound) :=
  ⟨rfl, rfl, rfl, rfl,
    c5_rag_empty_extraction_not_found
      [("request", ArgValue.str "q"), ("file_url", ArgValue.str "u")] "conv"
      (fun _ => none) (fun _ => none) (fun _ => []) (fun _ => []) (fun _ => "")
      (ArgValue.str "q") (ArgValue.str "u") rfl rfl rfl rfl⟩

/-- C6: for every document chunked into at least one chunk, the retrieval
tool searches the index with `k = min(3, N)` and the search yields
`min(k, N)` chunk indices, each a valid position below `N`, so every index
used to look up a retrieved chunk is in range. -/
theorem c6_rag_search_clamped_in_range (chunks : List String) (embed : String → List Rat)
    (request : String) (h : 1 ≤ chunks.length) :
    (ragSearchIndices chunks embed request).length =
      min (min 3 chunks.length) chunks.length ∧
    ∀ i ∈ ragSearchIndices chunks embed request, i < chunks.length := by
  constructor
  · rw [show ragSearchIndices chunks embed request =
        indexFlatL2Search (chunks.map embed) (embed request) (min 3 chunks.length) from rfl,
      indexFlatL2Search_length, List.length_map]
  · intro i hi
    unfold ragSearchIndices at hi
    have hlt := indexFlatL2Search_lt_length hi
    rwa [List.length_map] at hlt

/-- C6 witness: the clamped search evaluated on a one-chunk document. -/
theorem c6_rag_search_witness :
    1 ≤ (["chunk"] : List String).length ∧
    ((ragSearchIndices ["chunk"] (fun _ => []) "q").length =
        min (min 3 (["chunk"] : List String).length) (["chunk"] : List String).length ∧
      ∀ i ∈ ragSearchIndices ["chunk"] (fun _ => []) "q", i < (["chunk"] : List String).length) :=
  ⟨by decide, c6_rag_search_clamped_in_range ["chunk"] (fun _ => []) "q" (by decide)⟩

/-- C8: for every query and non-empty retrieved chunk list, the augmented
prompt built by the retrieval tool and recorded in the progress sink (and
passed to generation) equals exactly `CONTEXT:\n`, the retrieved chunks
joined in the order returned by search, `\n---\nREQUEST: ` and the query
(the spec-modelled prompt shape). -/
theorem c8_rag_augmented_prompt_shape (log : List String) (request : String)
    (index : List (List Rat)) (chunks : List String) (embed : String → List Rat)
    (generate : String → String) (retrieved : List String)
    (hmap : (indexFlatL2Search index (embed request) (min 3 chunks.length)).mapM
      (listGetE chunks) = Except.ok retrieved)
    (hne : retrieved ≠ []) :
    ragExecuteSearch log request index chunks embed generate =
      Except.ok (log ++ ["## RAG Request: \n",
          "```text\n\r" ++ specAugmentedPrompt request retrieved ++ "\n\r```\n\r",
          "## Response: \n"] ++ [generate (specAugmentedPrompt request retrieved)],
        generate (specAugmentedPrompt request retrieved)) := by
  simp only [ragExecuteSearch, hmap, ragAugmentation_eq_spec]

/-- C8 witness: the prompt shape evaluated on a one-chunk document with an
identity generation collaborator. -/
theorem c8_rag_augmented_prompt_witness :
    ((indexFlatL2Search [[]] ((fun _ : String => ([] : List Rat)) "q")
        (min 3 (["c"] : List String).length)).mapM (listGetE ["c"]) = Except.ok ["c"]) ∧
    (["c"] : List String) ≠ [] ∧
    ragExecuteSearch [] "q" [[]] ["c"] (fun _ => []) (fun p => p) =
      Except.ok (([] : List String) ++ ["## RAG Request: \n",
          "```text\n\r" ++ specAugmentedPrompt "q" ["c"] ++ "\n\r```\n\r",
          "## Response: \n"] ++ [(fun p : String => p) (specAugmentedPrompt "q" ["c"])],
        (fun p : String => p) (specAugmentedPrompt "q" ["c"])) :=
  ⟨rfl, by decide,
    c8_rag_augmented_prompt_shape [] "q" [[]] ["c"] (fun _ => []) (fun p => p) ["c"] rfl
      (by decide)⟩

/-- C9: for an image-tool result message with exactly one `image/png`
attachment and no text content, exactly one inline markdown image
reference is appended to the visible response channel and the message
content is set to the fixed confirmation sentence; moreover every string
ever appended to the visible response channel is the markdown reference of
an attachment whose MIME type is `image/png` or `image/jpeg`, so a
non-image attachment is never inlined. -/
theorem c9_image_tool_inline_png (msg : DialMessage) (cc : DialCustomContent)
    (a : DialAttachment) (m : DialMessage) (s : String)
    (h1 : msg.custom_content = some cc) (h2 : cc.attachments = some [a])
    (h3 : a.type = some "image/png") (h4 : msg.content = none ∨ msg.content = some "")
    (hs : s ∈ (imageGenExecute m).1) :
    ((imageGenExecute msg).1 = [imageMarkdown a] ∧
      (imageGenExecute msg).2.content = some imageConfirmation) ∧
    ∃ b : DialAttachment, ∃ cc2 : DialCustomContent, ∃ atts : List DialAttachment,
      m.custom_content = some cc2 ∧ cc2.attachments = some atts ∧ b ∈ atts ∧
      isImageAttachment b = true ∧ s = imageMarkdown b := by
  constructor
  · have him : isImageAttachment a = true := by
      simp [isImageAttachment, h3]
    have hmsg : imageGenExecute msg =
        ([imageMarkdown a], { msg with content := some imageConfirmation }) := by
      simp only [imageGenExecute, h1, h2]
      rw [List.filter_cons_of_pos him]  -- check name
      rw [if_pos h4]
      simp
    rw [hmsg]
    exact ⟨rfl, rfl⟩
  · rcases hm : m.custom_content with _ | cc2
    · rw [show (imageGenExecute m).1 = [] from by simp [imageGenExecute, hm]] at hs
      exact absurd hs (List.not_mem_nil s)
    · rcases hatts : cc2.attachments with _ | atts
      · rw [show (imageGenExecute m).1 = [] from by simp [imageGenExecute, hm, hatts]] at hs
        exact absurd hs (List.not_mem_nil s)
      · rcases atts with _ | ⟨a0, rest⟩
        · rw [show (imageGenExecute m).1 = [] from by simp [imageGenExecute, hm, hatts]] at hs
          exact absurd hs (List.not_mem_nil s)
        · have hs2 : s ∈ ((a0 :: rest).filter isImageAttachment).map imageMarkdown := by
            have : (imageGenExecute m).1 =
                ((a0 :: rest).filter isImageAttachment).map imageMarkdown := by
              simp [imageGenExecute, hm, hatts]
            rwa [this] at hs
          simp only [List.mem_map] at hs2
          obtain ⟨b, hb, hbs⟩ := hs2
          exact ⟨b, cc2, a0 :: rest, rfl, hatts, List.mem_of_mem_filter hb,
            List.of_mem_filter hb, hbs.symm⟩

/-- C9 witness: the inline-and-confirm behaviour evaluated at a concrete
one-PNG result message. -/
theorem c9_image_tool_witness :
    witMsg.custom_content = some { attachments := some [witAttachment] } ∧
    ({ attachments := some [witAttachment] } : DialCustomContent).attachments =
      some [witAttachment] ∧
    witAttachment.type = some "image/png" ∧
    (witMsg.content = none ∨ witMsg.content = some "") ∧
    imageMarkdown witAttachment ∈ (imageGenExecute witMsg).1 ∧
    (((imageGenExecute witMsg).1 = [imageMarkdown witAttachment] ∧
        (imageGenExecute witMsg).2.content = some imageConfirmation) ∧
      ∃ b : DialAttachment, ∃ cc2 : DialCustomContent, ∃ atts : List DialAttachment,
        witMsg.custom_content = some cc2 ∧ cc2.attachments = some atts ∧ b ∈ atts ∧
        isImageAttachment b = true ∧ imageMarkdown witAttachment = imageMarkdown b) :=
  ⟨rfl, rfl, rfl, Or.inl rfl, by simp [imageGenExecute, witMsg, witAttachment, isImageAttachment],
    c9_image_tool_inline_png witMsg { attachments := some [witAttachment] } witAttachment
      witMsg (imageMarkdown witAttachment) rfl rfl rfl (Or.inl rfl)
      (by simp [imageGenExecute, witMsg, witAttachment, isImageAttachment])⟩

